import Mathlib

/-!
Verification of the IMDb film scraper (field extraction, link discovery,
pagination, record gating, concurrent aggregation, review extraction).

The definitions below are shallow embeddings of the Python sources
`test_claude.py`, `ver3.py`, `ver4_Selenium_Based.py`, `review_scraper.py`
and `review_classifier.py`.  A parsed HTML document is abstracted as a
record of query functions (CSS select / select_one / find results), which
is exactly the interface the scraper consumes from BeautifulSoup.
-/

namespace Scraper

/-- Python `str.strip()`: drop whitespace from both ends. -/
def pyStrip (s : String) : String :=
  ⟨((s.data.dropWhile Char.isWhitespace).reverse.dropWhile Char.isWhitespace).reverse⟩

/-- Python `s.split('?')[0]`: everything before the first question mark. -/
def stripQuery (s : String) : String :=
  ⟨s.data.takeWhile (fun c => c ≠ '?')⟩

/-- The canonical (absolute, query-stripped) link built from one anchor
`href`, as `extract_movie_links` does. -/
def canonHref (h : String) : String := "https://www.imdb.com" ++ stripQuery h

/-- Python `s.startswith(pre)`. -/
def pyStartsWith (pre s : String) : Bool := pre.data.isPrefixOf s.data

/-- Python truthiness of a string: non-empty. -/
def pyTruthy (s : String) : Bool := !s.data.isEmpty

/-- A regex word character (`\w`): letter, digit or underscore. -/
def isWordChar (c : Char) : Bool := c.isAlphanum || c == '_'

/-- Attempt of `re` pattern `(19\d{2}|20\d{2})\b` at the head of the list
(the leading `\b` is checked by the caller). -/
def yearHere : List Char → Option (List Char)
  | c1 :: c2 :: c3 :: c4 :: rest =>
    if ((c1 == '1' && c2 == '9') || (c1 == '2' && c2 == '0'))
        && c3.isDigit && c4.isDigit
        && (match rest with
            | [] => true
            | c :: _ => !isWordChar c) then
      some [c1, c2, c3, c4]
    else
      none
  | _ => none

/-- Left-to-right scan of `re.search(r'\b(19\d{2}|20\d{2})\b', s)`:
`prevWord` says whether the character before the current position is a
word character (no match may start right after one, since the year
pattern starts with a digit). -/
def yearScan (prevWord : Bool) : List Char → Option (List Char)
  | [] => none
  | c :: rest =>
    match (if prevWord then none else yearHere (c :: rest)) with
    | some y => some y
    | none => yearScan (isWordChar c) rest

/-- `re.search(r'\b(19\d{2}|20\d{2})\b', s)`, returning the matched text. -/
def yearSearch (s : String) : Option String :=
  (yearScan false s.data).map (fun l => ⟨l⟩)

/-- The greedy match of `\d+\.?\d*` at a position that starts with a digit. -/
def ratingCore (l : List Char) : List Char :=
  let d1 := l.takeWhile Char.isDigit
  match l.dropWhile Char.isDigit with
  | c :: r2 => if c = '.' then d1 ++ '.' :: r2.takeWhile Char.isDigit else d1
  | [] => d1

/-- `re.search(r'(\d+\.?\d*)', s)`: the leftmost position holding a digit
starts the match, which then extends greedily. -/
def ratingSearchL (l : List Char) : Option (List Char) :=
  match l.dropWhile (fun c => !c.isDigit) with
  | [] => none
  | r => some (ratingCore r)

/-- `re.search(r'(\d+\.?\d*)', s)`, returning group 1 as a string. -/
def ratingSearch (s : String) : Option String :=
  (ratingSearchL s.data).map (fun l => ⟨l⟩)

/-- A parsed document, abstracted as the BeautifulSoup query interface the
scraper uses: `select` yields the `href` attribute of each matched anchor
(`''` when absent, as `link.get('href','')` does), `selectTexts` yields the
text of each matched element, `selectOne` the text of the first matched
element, `titleText` the text of the `<title>` element, `h1Text` the text
of the first `<h1>`, and `boxOffice` the (label, value) text pairs of the
box-office metadata list items (either span may be missing). -/
structure Doc where
  select : String → List String
  selectTexts : String → List String
  selectOne : String → Option String
  titleText : Option String
  h1Text : Option String
  boxOffice : List (Option String × Option String)

/-- The ordered year selector strategies of `IMDbScraper.extract_year`. -/
def yearSelectors : List String :=
  ["h1 + div div[data-testid=\"title-metadata\"] ul li",
   "ul.sc-afe43def-1 > li:first-child",
   "div[data-testid=\"hero-title-block__metadata\"] > ul > li",
   "span.sc-8c396aa2-2",
   "li.ipc-inline-list__item:first-child"]

/-- The ordered rating selector strategies of `IMDbScraper.extract_rating`. -/
def ratingSelectors : List String :=
  ["div[data-testid=\"hero-rating-bar__aggregate-rating__score\"] span",
   "span.sc-bde20123-1",
   "div.sc-7ab21ed2-1",
   "span.sc-7ab21ed2-1"]

/-- The ordered genre selector strategies of `IMDbScraper.extract_genres`. -/
def genreSelectors : List String :=
  ["div[data-testid=\"genres\"] a",
   "span.ipc-chip__text",
   "div.sc-16ede01-0 a",
   "li.ipc-inline-list__item a"]

/-- The ordered link selector strategies of
`IMDbScraper.extract_movie_links` (`test_claude.py`). -/
def linkSelectors : List String :=
  ["div.lister-item-content h3.lister-item-header a",
   "div.sc-afe43def-1 a.sc-afe43def-2",
   "h3.lister-item-header a",
   "div.lister-item a[href^=\"/title/\"]",
   "a.lister-item-header-link",
   "a[href^=\"/title/tt\"]"]

/-- The selector loop of `extract_year`: try `select_one`; if an element is
found, search its stripped text for a year and return on the first match;
when the selectors are exhausted, fall back to the `<title>` text, else
return `'N/A'`. -/
def goYear (d : Doc) : List String → String
  | [] =>
    match d.titleText with
    | some t =>
      match yearSearch t with
      | some y => y
      | none => "N/A"
    | none => "N/A"
  | sel :: rest =>
    match d.selectOne sel with
    | some txt =>
      match yearSearch (pyStrip txt) with
      | some y => y
      | none => goYear d rest
    | none => goYear d rest

/-- `IMDbScraper.extract_year` of `test_claude.py`. -/
def extract_year (d : Doc) : String := goYear d yearSelectors

/-- The selector loop of `extract_rating`. -/
def goRating (d : Doc) : List String → String
  | [] => "N/A"
  | sel :: rest =>
    match d.selectOne sel with
    | some txt =>
      match ratingSearch (pyStrip txt) with
      | some v => v
      | none => goRating d rest
    | none => goRating d rest

/-- `IMDbScraper.extract_rating` of `test_claude.py`. -/
def extract_rating (d : Doc) : String := goRating d ratingSelectors

/-- Insertion into a Python `set`, modelled on lists: a no-op when the
element is present. -/
def insertSet (s : List String) (x : String) : List String :=
  if x ∈ s then s else s ++ [x]

/-- The genre selector loop: the first selector whose element texts give a
non-empty deduplicated list wins. -/
def goGenres (d : Doc) : List String → List String
  | [] => []
  | sel :: rest =>
    let elems := d.selectTexts sel
    if elems = [] then goGenres d rest
    else
      let gs := (elems.map pyStrip).foldl insertSet []
      if gs = [] then goGenres d rest else gs

/-- `IMDbScraper.extract_genres` of `test_claude.py`. -/
def extract_genres (d : Doc) : List String := goGenres d genreSelectors

/-- The inner anchor loop of `extract_movie_links`: every matched anchor
with a non-empty `href` starting with `/title/` contributes
`https://www.imdb.com` + the query-stripped `href` to the set. -/
def addLinks (acc : List String) (hrefs : List String) : List String :=
  hrefs.foldl
    (fun a h =>
      if pyTruthy h && pyStartsWith "/title/" h then insertSet a (canonHref h)
      else a)
    acc

/-- The selector loop of `extract_movie_links`: for each selector with at
least one matched anchor, add its valid links; stop at the first selector
after which the accumulated set is non-empty. -/
def goLinks (d : Doc) : List String → List String → List String
  | [], acc => acc
  | sel :: rest, acc =>
    let found := d.select sel
    if found = [] then goLinks d rest acc
    else
      let acc2 := addLinks acc found
      if acc2 = [] then goLinks d rest acc2 else acc2

/-- `IMDbScraper.extract_movie_links` of `test_claude.py` (as the set of
returned links, in insertion order). -/
def extract_movie_links (d : Doc) : List String := goLinks d linkSelectors []

/-- The box-office fields accumulated by the metadata loop of
`get_movie_details`. -/
structure BoxData where
  budget : String
  worldwide_gross : String
  opening_weekend : String
  local_gross : String
deriving DecidableEq, Repr

/-- Python substring membership `needle in hay` on character lists. -/
def hasSub (needle : List Char) : List Char → Bool
  | [] => needle.isPrefixOf []
  | c :: rest => needle.isPrefixOf (c :: rest) || hasSub needle rest

/-- Python `needle in hay` for strings. -/
def hasSubstr (needle hay : String) : Bool := hasSub needle.data hay.data

/-- The box-office metadata loop of `get_movie_details`: items whose label
and value spans are both present assign the matching field (later items
overwrite earlier ones); all fields start at `'N/A'`. -/
def boxFold (items : List (Option String × Option String)) : BoxData :=
  items.foldl
    (fun acc it =>
      match it.1, it.2 with
      | some lbl, some v =>
        let lbl := pyStrip lbl
        let v := pyStrip v
        if hasSubstr "Budget" lbl then { acc with budget := v }
        else if hasSubstr "Gross worldwide" lbl then { acc with worldwide_gross := v }
        else if hasSubstr "Opening weekend" lbl then { acc with opening_weekend := v }
        else if hasSubstr "Gross US & Canada" lbl then { acc with local_gross := v }
        else acc
      | _, _ => acc)
    { budget := "N/A", worldwide_gross := "N/A",
      opening_weekend := "N/A", local_gross := "N/A" }

/-- One scraped movie record (`movie_data` in `get_movie_details`); the
`country` field is added later by the orchestrating loop. -/
structure MovieData where
  title : String
  year : String
  genres : List String
  imdb_rating : String
  local_gross : String
  worldwide_gross : String
  budget : String
  opening_weekend : String
  url : String
  country : String := ""
deriving DecidableEq, Repr

/-- `IMDbScraper.get_movie_details` of `test_claude.py`.  `fetch` is the
outcome of the single `requests.get` on the query-stripped URL: `none`
models a `RequestException` (caught, logged, `None` returned), `some d`
the parsed document.  A record is returned only when both the year and the
rating extraction produced a value other than `'N/A'`. -/
def get_movie_details (fetch : Option Doc) (movie_url : String) : Option MovieData :=
  let unique_url := stripQuery movie_url
  match fetch with
  | none => none
  | some d =>
    let title :=
      match d.h1Text with
      | some t => pyStrip t
      | none => "Unknown"
    let year := extract_year d
    if year = "N/A" then none
    else
      let genres := extract_genres d
      let rating := extract_rating d
      if rating = "N/A" then none
      else
        let b := boxFold d.boxOffice
        some { title := title, year := year, genres := genres,
               imdb_rating := rating, local_gross := b.local_gross,
               worldwide_gross := b.worldwide_gross, budget := b.budget,
               opening_weekend := b.opening_weekend, url := unique_url }

/-- The run's environment for the pagination loop: the parsed listing
document returned by `get_imdb_search_results` for each start index, or
`none` when that fetch failed. -/
structure World where
  pages : Nat → Option Doc

/-- The `start_index` computed for a 1-based page number in
`scrape_country_films`. -/
def pageIdx (page : Nat) : Nat := 1 + (page - 1) * 50

/-- `processed_urls.update(link.split('?')[0] for link in new_movie_links)`. -/
def updateProcessed (processed : List String) (newLinks : List String) : List String :=
  newLinks.foldl (fun a l => insertSet a (stripQuery l)) processed

/-- The pagination loop of `scrape_country_films` (`test_claude.py`),
restricted to its link bookkeeping: starting at `page` with `fuel` pages
remaining, it fetches each listing page, breaks when the fetch fails or no
links are found, filters the discovered links against `processed_urls`,
and adds the new ones.  Returns the final `processed_urls` set together
with the list of page numbers for which a fetch was attempted. -/
def scrapeLoop (w : World) : Nat → Nat → List String → List String × List Nat
  | _, 0, processed => (processed, [])
  | page, fuel + 1, processed =>
    match w.pages (pageIdx page) with
    | none => (processed, [page])
    | some d =>
      let links := extract_movie_links d
      if links = [] then (processed, [page])
      else
        let newLinks := links.filter (fun l => decide (stripQuery l ∉ processed))
        let processed2 := updateProcessed processed newLinks
        let res := scrapeLoop w (page + 1) fuel processed2
        (res.1, page :: res.2)

/-- `scrape_country_films`'s pagination, from page 1 with an empty
`processed_urls` set. -/
def scrape_country_films (w : World) (maxPages : Nat) : List String × List Nat :=
  scrapeLoop w 1 maxPages []

/-- Whether the loop stops at `page`: the fetch failed or the page's link
discovery produced nothing.  (The spec-side stop rule; the loop's state
plays no part in it.) -/
def pageBad (w : World) (page : Nat) : Bool :=
  match w.pages (pageIdx page) with
  | none => true
  | some d => decide (extract_movie_links d = [])

/-- Modelled from the spec-side stop rule: the pages visited starting at
`page` with `fuel` pages left, advancing exactly while pages are good. -/
def specVisited (w : World) : Nat → Nat → List Nat
  | _, 0 => []
  | page, fuel + 1 =>
    if pageBad w page then [page] else page :: specVisited w (page + 1) fuel

/-- The completion-order outcome of one detail-fetch future in the
executor loop: the record, `None` (record gated away or fetch failed), or
an exception raised out of `future.result()`. -/
inductive FetchOutcome where
  | ok (m : MovieData)
  | skipped
  | raised
deriving DecidableEq, Repr

/-- Whether an outcome carries a record. -/
def FetchOutcome.isOk : FetchOutcome → Bool
  | .ok _ => true
  | _ => false

/-- The body of the `as_completed` collection loop of
`scrape_country_films`: a successful record gets the `country` field and
is appended; a `None` result or an exception leaves the table unchanged
(the exception is logged). -/
def collectStep (country : String) (acc : List MovieData) (o : FetchOutcome) :
    List MovieData :=
  match o with
  | .ok m => acc ++ [{ m with country := country }]
  | _ => acc

/-- The `as_completed` collection loop of `scrape_country_films` over a
completion-ordered list of outcomes. -/
def collectOutcomes (country : String) (outs : List FetchOutcome) : List MovieData :=
  outs.foldl (collectStep country) []

/-- The detail fetcher seen against a stream of fetch attempts
(`attempts k` is what the `k`-th `requests.get` of the same URL would
return): the code of `get_movie_details` performs exactly one request, so
only attempt 0 is consumed. -/
def get_movie_detailsW (attempts : Nat → Option Doc) (movie_url : String) : Option MovieData :=
  get_movie_details (attempts 0) movie_url

/-- The tenacity `@retry(stop=stop_after_attempt(3), ...)` decorator on
`process_review` (`review_classifier.py`): call the wrapped function up to
`fuel` times (`f k` is the outcome of the `k`-th call), returning the
first success; when the last allowed call fails its error is re-raised.
The exponential back-off wait between calls has no effect on the value and
is not modelled. -/
def retryAttempts {α : Type} (f : Nat → Except Unit α) : Nat → Nat → Except Unit α
  | _, 0 => Except.error ()
  | k, 1 => f k
  | k, fuel + 2 =>
    match f k with
    | Except.ok a => Except.ok a
    | Except.error _ => retryAttempts f (k + 1) (fuel + 1)

/-- `process_review` as wrapped by its retry policy (3 attempts). -/
def processReviewCall {α : Type} (f : Nat → Except Unit α) : Except Unit α :=
  retryAttempts f 0 3

end Scraper

namespace ReviewScraper

open Scraper (pyStrip pyTruthy)

/-- The `a.ipc-title-link-wrapper` anchor of one review article: its `h3`
child's text (if any) and its `href` attribute (if any). -/
structure TitleAnchor where
  h3Text : Option String
  href : Option String

/-- One `article.sc-8c92b587-1` element of the review page, abstracted as
the query results `extract_reviews` reads from it.  `ratingInner` is the
`ipc-rating-star--otherUserAlt` span (`some inner` when present, where
`inner` is the text of its `ipc-rating-star--rating` child, `none` when
that child is missing — which raises inside the loop). -/
structure ReviewArticle where
  ratingInner : Option (Option String)
  titleAnchor : Option TitleAnchor
  contentText : Option String
  upText : Option String
  downText : Option String
  dateText : Option String

/-- One extracted review row. -/
structure ReviewData where
  movie_title : String
  review_score : String
  review_title : String
  review_content : String
  upvotes : String
  downvotes : String
  date : String
  permalink : String
deriving DecidableEq, Repr

/-- A parsed review page: the text of the `tturv-total-reviews` element
(if present) and the review articles in document order. -/
structure ReviewDoc where
  totalText : Option String
  articles : List ReviewArticle

/-- The body of the per-review `try` block in
`IMDbReviewScraper.extract_reviews`: `none` models an exception (the
review is skipped and the loop continues). -/
def parseReview (movieTitle movieUrl : String) (a : ReviewArticle) : Option ReviewData :=
  let score? : Option String :=
    match a.ratingInner with
    | none => some "N/A"
    | some none => none
    | some (some t) => some (pyStrip t)
  match score? with
  | none => none
  | some score =>
    let title? : Option (String × String) :=
      match a.titleAnchor with
      | none => some ("N/A", movieUrl)
      | some anc =>
        match anc.h3Text with
        | none => none
        | some h =>
          let permalink :=
            match anc.href with
            | some hr => if pyTruthy hr then "https://www.imdb.com" ++ hr else movieUrl
            | none => movieUrl
          some (pyStrip h, permalink)
    match title? with
    | none => none
    | some (rtitle, permalink) =>
      some { movie_title := movieTitle, review_score := score,
             review_title := rtitle,
             review_content := (a.contentText.map pyStrip).getD "N/A",
             upvotes := (a.upText.map pyStrip).getD "N/A",
             downvotes := (a.downText.map pyStrip).getD "N/A",
             date := (a.dateText.map pyStrip).getD "N/A",
             permalink := permalink }

/-- The value of a digit string, as Python `int` computes it. -/
def natOfDigits (l : List Char) : Nat :=
  l.foldl (fun a c => 10 * a + (c.toNat - 48)) 0

/-- `IMDbReviewScraper.extract_total_reviews`: 0 when the total-reviews
element is absent or its text holds no digit, else the number formed by
its digits. -/
def extract_total_reviews (d : ReviewDoc) : Nat :=
  match d.totalText with
  | none => 0
  | some t =>
    let ds := (pyStrip t).data.filter Char.isDigit
    if ds = [] then 0 else natOfDigits ds

/-- `IMDbReviewScraper.extract_reviews`: the parsed rows of the first 25
review articles (rows whose parsing raises are skipped) together with the
total review count. -/
def extract_reviews (d : ReviewDoc) (movieTitle movieUrl : String) :
    List ReviewData × Nat :=
  let total := extract_total_reviews d
  match d.articles with
  | [] => ([], total)
  | _ => ((d.articles.take 25).filterMap (parseReview movieTitle movieUrl), total)

end ReviewScraper

namespace Scraper

/-- The first `some` of a list of optional results. -/
def firstSome {α : Type} : List (Option α) → Option α
  | [] => none
  | some a :: _ => some a
  | none :: rest => firstSome rest

/-- The per-strategy normalized results of the year field, in declaration
order (the `<title>` fallback is the last strategy). -/
def yearStrategyResults (d : Doc) : List (Option String) :=
  (yearSelectors.map fun sel => (d.selectOne sel).bind fun t => yearSearch (pyStrip t))
    ++ [d.titleText.bind yearSearch]

/-- The per-strategy normalized results of the rating field, in
declaration order. -/
def ratingStrategyResults (d : Doc) : List (Option String) :=
  ratingSelectors.map fun sel => (d.selectOne sel).bind fun t => ratingSearch (pyStrip t)

/-- The raw text located for the rating field: the text of the first
rating strategy that finds an element at all. -/
def firstRatingText (d : Doc) : Option String :=
  firstSome (ratingSelectors.map d.selectOne)

/-- The canonicalized link set one selector's matches alone would produce. -/
def linksOf (hrefs : List String) : List String := addLinks [] hrefs

/-- A document on which every query comes back empty. -/
def emptyDoc : Doc :=
  { select := fun _ => [], selectTexts := fun _ => [], selectOne := fun _ => none,
    titleText := none, h1Text := none, boxOffice := [] }

/-- A listing document whose first selector matches one anchor that is not
a `/title/` link, while only the last selector matches a movie anchor. -/
def cdocC2 : Doc :=
  { emptyDoc with
    select := fun sel =>
      if sel = "div.lister-item-content h3.lister-item-header a" then ["/name/nm0000001"]
      else if sel = "a[href^=\"/title/tt\"]" then ["/title/tt0000001"]
      else [] }

/-- A listing document whose first selector already yields a valid link. -/
def cdocC2w : Doc :=
  { emptyDoc with
    select := fun sel =>
      if sel = "div.lister-item-content h3.lister-item-header a" then
        ["/title/tt0000007?ref_=adv_li_tt"]
      else [] }

/-- A listing document advertising exactly the one movie link `tt1`. -/
def cdocA : Doc :=
  { emptyDoc with
    select := fun sel =>
      if sel = "a[href^=\"/title/tt\"]" then ["/title/tt0000001"] else [] }

/-- A listing document advertising exactly the one movie link `tt2`. -/
def cdocB : Doc :=
  { emptyDoc with
    select := fun sel =>
      if sel = "a[href^=\"/title/tt\"]" then ["/title/tt0000002"] else [] }

/-- A three-page run in which page 2 repeats page 1's only link and page 3
holds a fresh link. -/
def cworldC3 : World :=
  { pages := fun idx =>
      if idx = 1 then some cdocA
      else if idx = 51 then some cdocA
      else if idx = 101 then some cdocB
      else none }

/-- A detail document with a year and a rating, so that its record passes
the validity gate. -/
def cGoodDoc : Doc :=
  { emptyDoc with
    h1Text := some "Some Film",
    selectOne := fun sel =>
      if sel = "span.sc-8c396aa2-2" then some "2001"
      else if sel = "span.sc-bde20123-1" then some "7.4" else none }

/-- A fetch-attempt stream whose first attempt fails with a transport
error while every later attempt would succeed. -/
def cAttemptsC7 : Nat → Option Doc
  | 0 => none
  | _ + 1 => some cGoodDoc

/-- A fetch-attempt stream that always fails. -/
def cAttemptsC7a : Nat → Option Doc := fun _ => none

/-- A fetch-attempt stream failing at attempt 0 only, like `cAttemptsC7a`
at attempt 0 but different afterwards. -/
def cAttemptsC7b : Nat → Option Doc
  | 0 => none
  | _ + 1 => some emptyDoc

/-- A fallible call failing on its first invocation and succeeding on the
second. -/
def cCallC7 : Nat → Except Unit Nat
  | 0 => Except.error ()
  | _ + 1 => Except.ok 5

/-- A concrete movie record. -/
def cMovieA : MovieData :=
  { title := "A", year := "2001", genres := [], imdb_rating := "7.4",
    local_gross := "N/A", worldwide_gross := "N/A", budget := "N/A",
    opening_weekend := "N/A", url := "u1" }

/-- Another concrete movie record. -/
def cMovieB : MovieData :=
  { title := "B", year := "2002", genres := [], imdb_rating := "8.0",
    local_gross := "N/A", worldwide_gross := "N/A", budget := "N/A",
    opening_weekend := "N/A", url := "u2" }

/-- A completion order of four detail-fetch outcomes: two successes, one
exception and one discarded record. -/
def cOutcomes : List FetchOutcome :=
  [FetchOutcome.ok cMovieA, FetchOutcome.raised, FetchOutcome.skipped,
   FetchOutcome.ok cMovieB]

/-- A detail document whose rating element text embeds the value in
surrounding text, as in the spec's scenario: the first rating strategy
finds nothing and the second finds `"7.4 / 10"`. -/
def cdocC9 : Doc :=
  { emptyDoc with
    selectOne := fun sel =>
      if sel = "span.sc-bde20123-1" then some "7.4 / 10" else none }

end Scraper

namespace ReviewScraper

/-- A review article all of whose parts are present. -/
def cArticle (n : Nat) : ReviewArticle :=
  { ratingInner := some (some (toString n)),
    titleAnchor := some { h3Text := some "Good", href := some "/review/rw1/" },
    contentText := some "Nice film",
    upText := some "3", downText := some "1", dateText := some "Jan 1, 2020" }

/-- A review page with 30 well-formed review articles and a total-reviews
element whose text holds no digit. -/
def cReviewDoc : ReviewDoc :=
  { totalText := some "no reviews yet",
    articles := (List.range 30).map cArticle }

end ReviewScraper

namespace Scraper

theorem goYear_eq (d : Doc) (sels : List String) :
    goYear d sels =
      (firstSome ((sels.map fun sel => (d.selectOne sel).bind fun t => yearSearch (pyStrip t))
        ++ [d.titleText.bind yearSearch])).getD "N/A" := by
  induction sels with
  | nil =>
    cases h : d.titleText with
    | none => simp [goYear, firstSome, h]
    | some t =>
      cases h2 : yearSearch t <;> simp [goYear, firstSome, h, h2]
  | cons sel rest ih =>
    cases h : d.selectOne sel with
    | none => simpa [goYear, firstSome, h] using ih
    | some t =>
      cases h2 : yearSearch (pyStrip t) <;>
        simp [goYear, firstSome, h, h2, ih]

theorem goRating_eq (d : Doc) (sels : List String) :
    goRating d sels =
      (firstSome (sels.map fun sel =>
        (d.selectOne sel).bind fun t => ratingSearch (pyStrip t))).getD "N/A" := by
  induction sels with
  | nil => simp [goRating, firstSome]
  | cons sel rest ih =>
    cases h : d.selectOne sel with
    | none => simpa [goRating, firstSome, h] using ih
    | some t =>
      cases h2 : ratingSearch (pyStrip t) <;>
        simp [goRating, firstSome, h, h2, ih]

/-- Claim C1: for every parsed document, `extract_year` and
`extract_rating` return the normalized result of the first strategy whose
located raw value yields a non-empty normalization (for the year field the
`<title>` fallback is the last strategy), never consulting later
strategies after a success, and return the `'N/A'` sentinel — not an
error — when every strategy yields nothing. -/
theorem claim_C1 (d : Doc) :
    extract_year d = (firstSome (yearStrategyResults d)).getD "N/A"
    ∧ extract_rating d = (firstSome (ratingStrategyResults d)).getD "N/A" :=
  ⟨goYear_eq d yearSelectors, goRating_eq d ratingSelectors⟩

theorem goLinks_first (d : Doc) (pre : List String) (sel : String) (rest : List String)
    (hpre : ∀ s ∈ pre, linksOf (d.select s) = [])
    (hne : linksOf (d.select sel) ≠ []) :
    goLinks d (pre ++ sel :: rest) [] = linksOf (d.select sel) := by
  induction pre with
  | nil =>
    show goLinks d (sel :: rest) [] = _
    cases hf : d.select sel with
    | nil =>
      exact absurd (by simp [linksOf, addLinks, hf]) hne
    | cons a l =>
      rw [linksOf] at hne ⊢
      simp only [goLinks, hf]
      rw [if_neg (by simp), if_neg (hf ▸ hne)]
  | cons s pre ih =>
    have hs : linksOf (d.select s) = [] := hpre s (by simp)
    have hrest : ∀ t ∈ pre, linksOf (d.select t) = [] := by
      intro t ht
      exact hpre t (by simp [ht])
    show goLinks d (s :: (pre ++ sel :: rest)) [] = _
    cases hf : d.select s with
    | nil =>
      simp only [goLinks, hf, if_pos rfl]
      exact ih hrest
    | cons a l =>
      have hz : addLinks [] (a :: l) = [] := by
        rw [linksOf, hf] at hs
        exact hs
      simp only [goLinks, hf]
      rw [if_neg (by simp), if_pos hz, hz]
      exact ih hrest

/-- Claim C2 (amended): for every listing document in which some selector
strategy `s_k` is the first, in declaration order, whose matched anchors
yield at least one valid canonical link (non-empty `href` starting with
`/title/`), `extract_movie_links` returns exactly the canonicalized link
set produced by `s_k` alone; strategies after `s_k` are never consulted.
(Strategies before `s_k` — including ones matching anchors whose hrefs are
all invalid — contribute nothing.) -/
theorem claim_C2 (d : Doc) (pre : List String) (sel : String) (rest : List String)
    (hsplit : linkSelectors = pre ++ sel :: rest)
    (hpre : ∀ s ∈ pre, linksOf (d.select s) = [])
    (hne : linksOf (d.select sel) ≠ []) :
    extract_movie_links d = linksOf (d.select sel) := by
  rw [extract_movie_links, hsplit]
  exact goLinks_first d pre sel rest hpre hne

/-- Witness for claim C2: a document whose first selector already yields a
valid link. -/
theorem claim_C2_witness :
    extract_movie_links cdocC2w =
      linksOf (cdocC2w.select "div.lister-item-content h3.lister-item-header a") :=
  claim_C2 cdocC2w []
    "div.lister-item-content h3.lister-item-header a"
    ["div.sc-afe43def-1 a.sc-afe43def-2",
     "h3.lister-item-header a",
     "div.lister-item a[href^=\"/title/\"]",
     "a.lister-item-header-link",
     "a[href^=\"/title/tt\"]"]
    rfl (by intro s hs; cases hs) (by decide)

/-- Counterexample to claim C2 as stated: on `cdocC2` the first selector
strategy in declaration order matches an anchor (so it is the first with
at least one match), yet `extract_movie_links` does not return the set
that strategy alone produces — it returns a link only the last strategy
matched. -/
theorem claim_C2_cex :
    cdocC2.select (linkSelectors.headD "") = ["/name/nm0000001"]
    ∧ linksOf (cdocC2.select (linkSelectors.headD "")) = []
    ∧ extract_movie_links cdocC2 = ["https://www.imdb.com/title/tt0000001"]
    ∧ extract_movie_links cdocC2 ≠ linksOf (cdocC2.select (linkSelectors.headD "")) := by
  refine ⟨by decide, by decide, by decide, by decide⟩

/-- Claim C3 (amended): the pages the pagination loop visits are exactly
the ones given by the stop rule "stop at a page whose fetch failed or
whose link discovery returned nothing, else advance (up to the page
budget)" — in particular the accumulated `processed_urls` state plays no
part: a page whose discovered links contain no new identifier does not
stop the loop. -/
theorem claim_C3 (w : World) (page fuel : Nat) (processed : List String) :
    (scrapeLoop w page fuel processed).2 = specVisited w page fuel := by
  induction fuel generalizing page processed with
  | zero => rfl
  | succ n ih =>
    show (scrapeLoop w page (n + 1) processed).2 = specVisited w page (n + 1)
    cases h : w.pages (pageIdx page) with
    | none => simp [scrapeLoop, specVisited, pageBad, h]
    | some d =>
      by_cases he : extract_movie_links d = [] <;>
        simp [scrapeLoop, specVisited, pageBad, h, he, ih]

/-- Counterexample to claim C3 as stated: in `cworldC3`, page 2 discovers
a non-empty link set none of whose identifiers is new with respect to the
set accumulated after page 1, yet the driver advances and fetches page 3
instead of stopping. -/
theorem claim_C3_cex :
    cworldC3.pages (pageIdx 2) = some cdocA
    ∧ extract_movie_links cdocA ≠ []
    ∧ (extract_movie_links cdocA).filter
        (fun l => decide (stripQuery l ∉ (scrape_country_films cworldC3 1).1)) = []
    ∧ (scrape_country_films cworldC3 3).2 = [1, 2, 3] := by
  refine ⟨rfl, by decide, by decide, by decide⟩

theorem mem_insertSet (s : List String) (x y : String) :
    y ∈ insertSet s x ↔ y ∈ s ∨ y = x := by
  unfold insertSet
  by_cases h : x ∈ s
  · rw [if_pos h]
    constructor
    · exact Or.inl
    · rintro (hy | rfl)
      · exact hy
      · exact h
  · rw [if_neg h]
    simp

theorem insertSet_nodup (s : List String) (x : String) (h : s.Nodup) :
    (insertSet s x).Nodup := by
  unfold insertSet
  by_cases hx : x ∈ s
  · rwa [if_pos hx]
  · rw [if_neg hx]
    simp [List.nodup_append, h, hx]

theorem mem_updateProcessed (new : List String) :
    ∀ (processed : List String) (y : String),
      y ∈ updateProcessed processed new ↔
        y ∈ processed ∨ ∃ l ∈ new, y = stripQuery l := by
  induction new with
  | nil =>
    intro processed y
    simp [updateProcessed]
  | cons l rest ih =>
    intro processed y
    have step : updateProcessed processed (l :: rest)
        = updateProcessed (insertSet processed (stripQuery l)) rest := rfl
    rw [step, ih, mem_insertSet]
    simp only [List.mem_cons]
    constructor
    · rintro ((hy | rfl) | ⟨a, ha, rfl⟩)
      · exact Or.inl hy
      · exact Or.inr ⟨l, Or.inl rfl, rfl⟩
      · exact Or.inr ⟨a, Or.inr ha, rfl⟩
    · rintro (hy | ⟨a, (rfl | ha), rfl⟩)
      · exact Or.inl (Or.inl hy)
      · exact Or.inl (Or.inr rfl)
      · exact Or.inr ⟨a, ha, rfl⟩

theorem updateProcessed_nodup (new : List String) :
    ∀ processed, processed.Nodup → (updateProcessed processed new).Nodup := by
  induction new with
  | nil =>
    intro p h
    exact h
  | cons l rest ih =>
    intro p h
    have step : updateProcessed p (l :: rest)
        = updateProcessed (insertSet p (stripQuery l)) rest := rfl
    rw [step]
    exact ih _ (insertSet_nodup _ _ h)

theorem scrapeLoop_mono (w : World) (fuel : Nat) :
    ∀ (page : Nat) (processed : List String) (y : String),
      y ∈ processed → y ∈ (scrapeLoop w page fuel processed).1 := by
  induction fuel with
  | zero =>
    intro page processed y hy
    exact hy
  | succ n ih =>
    intro page processed y hy
    cases h : w.pages (pageIdx page) with
    | none => simpa [scrapeLoop, h] using hy
    | some d =>
      by_cases he : extract_movie_links d = []
      · simpa [scrapeLoop, h, he] using hy
      · simp only [scrapeLoop, h, if_neg he]
        exact ih _ _ _ ((mem_updateProcessed _ _ _).mpr (Or.inl hy))

theorem scrapeLoop_nodup (w : World) (fuel : Nat) :
    ∀ (page : Nat) (processed : List String), processed.Nodup →
      (scrapeLoop w page fuel processed).1.Nodup := by
  induction fuel with
  | zero =>
    intro page processed h
    exact h
  | succ n ih =>
    intro page processed hnd
    cases h : w.pages (pageIdx page) with
    | none => simpa [scrapeLoop, h] using hnd
    | some d =>
      by_cases he : extract_movie_links d = []
      · simpa [scrapeLoop, h, he] using hnd
      · simp only [scrapeLoop, h, if_neg he]
        exact ih _ _ (updateProcessed_nodup _ _ hnd)

theorem scrapeLoop_mem (w : World) (fuel : Nat) :
    ∀ (page : Nat) (processed : List String) (y : String),
      y ∈ (scrapeLoop w page fuel processed).1 ↔
        y ∈ processed ∨
          ∃ p ∈ (scrapeLoop w page fuel processed).2, ∃ d,
            w.pages (pageIdx p) = some d
              ∧ y ∈ (extract_movie_links d).map stripQuery := by
  induction fuel with
  | zero =>
    intro page processed y
    simp [scrapeLoop]
  | succ n ih =>
    intro page processed y
    cases h : w.pages (pageIdx page) with
    | none => simp [scrapeLoop, h]
    | some d =>
      by_cases he : extract_movie_links d = []
      · simp [scrapeLoop, h, he]
      · simp only [scrapeLoop, h, if_neg he]
        rw [ih]
        have hstep :
            y ∈ updateProcessed processed
                ((extract_movie_links d).filter
                  (fun l => decide (stripQuery l ∉ processed))) ↔
              y ∈ processed ∨ ∃ l ∈ extract_movie_links d, y = stripQuery l := by
          rw [mem_updateProcessed]
          constructor
          · rintro (hy | ⟨l, hl, rfl⟩)
            · exact Or.inl hy
            · exact Or.inr ⟨l, (List.mem_filter.mp hl).1, rfl⟩
          · rintro (hy | ⟨l, hl, rfl⟩)
            · exact Or.inl hy
            · by_cases hin : stripQuery l ∈ processed
              · exact Or.inl hin
              · exact Or.inr ⟨l, List.mem_filter.mpr ⟨hl, by simpa using hin⟩, rfl⟩
        rw [hstep]
        simp only [List.mem_cons, List.mem_map]
        constructor
        · rintro ((hy | ⟨l, hl, rfl⟩) | ⟨p, hp, d', hd', hy⟩)
          · exact Or.inl hy
          · exact Or.inr ⟨page, Or.inl rfl, d, h, ⟨l, hl, rfl⟩⟩
          · exact Or.inr ⟨p, Or.inr hp, d', hd', hy⟩
        · rintro (hy | ⟨p, (rfl | hp), d', hd', hy⟩)
          · exact Or.inl (Or.inl hy)
          · rw [h] at hd'
            obtain rfl : d = d' := Option.some.inj hd'
            obtain ⟨l, hl, rfl⟩ := hy
            exact Or.inl (Or.inr ⟨l, hl, rfl⟩)
          · exact Or.inr ⟨p, hp, d', hd', hy⟩

/-- Claim C4: across one run the accumulated link set has no duplicates
(each distinct canonical identifier appears exactly once), re-adding a
present identifier is a no-op, the set only grows as the loop proceeds,
and its members are exactly the canonical identifiers of the links
discovered on the visited pages. -/
theorem claim_C4 (w : World) (maxPages : Nat) :
    (scrape_country_films w maxPages).1.Nodup
    ∧ (∀ (s : List String) (x : String), x ∈ s → insertSet s x = s)
    ∧ (∀ (page fuel : Nat) (processed : List String) (y : String),
        y ∈ processed → y ∈ (scrapeLoop w page fuel processed).1)
    ∧ (∀ y, y ∈ (scrape_country_films w maxPages).1 ↔
        ∃ p ∈ (scrape_country_films w maxPages).2, ∃ d,
          w.pages (pageIdx p) = some d
            ∧ y ∈ (extract_movie_links d).map stripQuery) := by
  refine ⟨scrapeLoop_nodup w maxPages 1 [] List.nodup_nil,
          fun s x hx => if_pos hx,
          fun page fuel processed y hy => scrapeLoop_mono w fuel page processed y hy,
          fun y => ?_⟩
  rw [scrape_country_films, scrapeLoop_mem]
  simp

/-- Witness for claim C4: the no-op re-add and the growth property at
concrete inputs, via the theorem itself. -/
theorem claim_C4_witness :
    insertSet ["https://www.imdb.com/title/tt0000001"] "https://www.imdb.com/title/tt0000001"
        = ["https://www.imdb.com/title/tt0000001"]
    ∧ "x" ∈ (scrapeLoop cworldC3 1 0 ["x"]).1 :=
  ⟨(claim_C4 cworldC3 3).2.1 _ _ (by decide),
   (claim_C4 cworldC3 3).2.2.1 1 0 ["x"] "x" (by decide)⟩

/-- Claim C5: a detail record is emitted iff the page was fetched and both
required fields — the year and the rating — resolved to a value other than
the `'N/A'` sentinel after all strategies were tried; otherwise the whole
record is discarded (`none`), never emitted in partial form. -/
theorem claim_C5 (fetch : Option Doc) (movie_url : String) :
    (get_movie_details fetch movie_url).isSome = true ↔
      ∃ d, fetch = some d ∧ extract_year d ≠ "N/A" ∧ extract_rating d ≠ "N/A" := by
  cases fetch with
  | none => simp [get_movie_details]
  | some d =>
    by_cases hy : extract_year d = "N/A"
    · simp [get_movie_details, hy]
    · by_cases hr : extract_rating d = "N/A" <;>
        simp [get_movie_details, hy, hr]

theorem collectOutcomes_go (c : String) (outs : List FetchOutcome) :
    ∀ acc : List MovieData,
      outs.foldl (collectStep c) acc = acc ++ collectOutcomes c outs := by
  induction outs with
  | nil =>
    intro acc
    simp [collectOutcomes]
  | cons o rest ih =>
    intro acc
    rw [collectOutcomes, List.foldl_cons, List.foldl_cons, ih, ih]
    cases o <;> simp [collectStep, List.append_assoc]

theorem collectOutcomes_cons (c : String) (o : FetchOutcome) (rest : List FetchOutcome) :
    collectOutcomes c (o :: rest) = collectStep c [] o ++ collectOutcomes c rest := by
  rw [collectOutcomes, List.foldl_cons, collectOutcomes_go]

theorem collectOutcomes_length (c : String) (outs : List FetchOutcome) :
    (collectOutcomes c outs).length = outs.countP FetchOutcome.isOk := by
  induction outs with
  | nil => rfl
  | cons o rest ih =>
    rw [collectOutcomes_cons]
    cases o <;>
      simp [collectStep, List.countP_cons, FetchOutcome.isOk, ih, Nat.add_comm]

theorem countP_isOk_total (outs : List FetchOutcome) :
    outs.countP FetchOutcome.isOk + outs.countP (fun o => !o.isOk) = outs.length := by
  induction outs with
  | nil => rfl
  | cons o rest ih =>
    cases o with
    | ok m =>
      rw [List.countP_cons_of_pos _ _ (by rfl),
          List.countP_cons_of_neg _ _ (by simp [FetchOutcome.isOk]),
          List.length_cons]
      omega
    | skipped =>
      rw [List.countP_cons_of_neg _ _ (by simp [FetchOutcome.isOk]),
          List.countP_cons_of_pos _ _ (by rfl), List.length_cons]
      omega
    | raised =>
      rw [List.countP_cons_of_neg _ _ (by simp [FetchOutcome.isOk]),
          List.countP_cons_of_pos _ _ (by rfl), List.length_cons]
      omega

theorem collectOutcomes_append (c : String) (xs ys : List FetchOutcome) :
    collectOutcomes c (xs ++ ys) = collectOutcomes c xs ++ collectOutcomes c ys := by
  induction xs with
  | nil => rfl
  | cons o rest ih =>
    rw [List.cons_append, collectOutcomes_cons, collectOutcomes_cons, ih,
        List.append_assoc]

/-- Claim C6: over any completion order of `M` detail-fetch outcomes with
`K` permanent failures, the collected table holds exactly the `M − K`
successful records; a failed sibling (an exception or a discarded record)
contributes nothing and removes nothing, and every successful record ends
up in the table (the run is never aborted). -/
theorem claim_C6 (c : String) (outs : List FetchOutcome) :
    (collectOutcomes c outs).length = outs.countP FetchOutcome.isOk
    ∧ (collectOutcomes c outs).length
        = outs.length - outs.countP (fun o => !o.isOk)
    ∧ (∀ xs ys, collectOutcomes c (xs ++ FetchOutcome.raised :: ys)
        = collectOutcomes c (xs ++ ys))
    ∧ (∀ xs ys, collectOutcomes c (xs ++ FetchOutcome.skipped :: ys)
        = collectOutcomes c (xs ++ ys))
    ∧ (∀ m : MovieData, FetchOutcome.ok m ∈ outs →
        ({ m with country := c } : MovieData) ∈ collectOutcomes c outs) := by
  refine ⟨collectOutcomes_length c outs, ?_, ?_, ?_, ?_⟩
  · rw [collectOutcomes_length c outs]
    have h := countP_isOk_total outs
    omega
  · intro xs ys
    rw [collectOutcomes_append, collectOutcomes_append, collectOutcomes_cons]
    rfl
  · intro xs ys
    rw [collectOutcomes_append, collectOutcomes_append, collectOutcomes_cons]
    rfl
  · intro m hm
    induction outs with
    | nil => cases hm
    | cons o rest ih =>
      rw [collectOutcomes_cons]
      rcases List.mem_cons.mp hm with rfl | hm'
      · simp [collectStep]
      · cases o <;> simp [collectStep, ih hm']

/-- Witness for claim C6: a run of four outcomes with one discard and one
exception yields the two successful records, the failing siblings
notwithstanding. -/
theorem claim_C6_witness :
    (collectOutcomes "KZ" cOutcomes).length = 2
    ∧ ({ cMovieA with country := "KZ" } : MovieData) ∈ collectOutcomes "KZ" cOutcomes :=
  ⟨(claim_C6 "KZ" cOutcomes).1.trans (by decide),
   (claim_C6 "KZ" cOutcomes).2.2.2.2 cMovieA (by decide)⟩

/-- Claim C7 (amended): only the external review-classification call is
retried — up to three attempts, returning the first success and
re-raising after the third failure (exponential back-off between
attempts).  The detail-page fetch of `get_movie_details` is attempted
exactly once: its result depends only on the first fetch attempt, so a
transport failure there drops the item immediately instead of being
re-attempted. -/
theorem claim_C7 :
    (∀ (a b : Nat → Option Doc) (url : String), a 0 = b 0 →
        get_movie_detailsW a url = get_movie_detailsW b url)
    ∧ (∀ (α : Type) (f : Nat → Except Unit α) (v : α),
        f 0 = Except.ok v → processReviewCall f = Except.ok v)
    ∧ (∀ (α : Type) (f : Nat → Except Unit α) (v : α),
        f 0 = Except.error () → f 1 = Except.ok v →
        processReviewCall f = Except.ok v)
    ∧ (∀ (α : Type) (f : Nat → Except Unit α) (v : α),
        f 0 = Except.error () → f 1 = Except.error () → f 2 = Except.ok v →
        processReviewCall f = Except.ok v)
    ∧ (∀ (α : Type) (f : Nat → Except Unit α),
        f 0 = Except.error () → f 1 = Except.error () → f 2 = Except.error () →
        processReviewCall f = Except.error ()) := by
  refine ⟨?_, ?_, ?_, ?_, ?_⟩
  · intro a b url h
    rw [get_movie_detailsW, get_movie_detailsW, h]
  · intro α f v h0
    simp [processReviewCall, retryAttempts, h0]
  · intro α f v h0 h1
    simp [processReviewCall, retryAttempts, h0, h1]
  · intro α f v h0 h1 h2
    simp [processReviewCall, retryAttempts, h0, h1, h2]
  · intro α f h0 h1 h2
    simp [processReviewCall, retryAttempts, h0, h1, h2]

/-- Witness for claim C7: two attempt streams that agree on attempt 0 give
the same detail record, and a classification call failing once succeeds on
its retry. -/
theorem claim_C7_witness :
    get_movie_detailsW cAttemptsC7a "u" = get_movie_detailsW cAttemptsC7b "u"
    ∧ processReviewCall cCallC7 = Except.ok 5 :=
  ⟨claim_C7.1 cAttemptsC7a cAttemptsC7b "u" rfl,
   claim_C7.2.2.1 Nat cCallC7 5 rfl rfl⟩

/-- Counterexample to claim C7 as stated: a detail-page fetch whose first
attempt fails with a transport error is dropped immediately (the result is
`none`), although the very next attempt — which a retry policy would have
made — returns a document yielding a complete record. -/
theorem claim_C7_cex :
    get_movie_detailsW cAttemptsC7 "https://www.imdb.com/title/tt0000001" = none
    ∧ cAttemptsC7 0 = none
    ∧ (get_movie_details (cAttemptsC7 1)
        "https://www.imdb.com/title/tt0000001").isSome = true :=
  ⟨rfl, rfl, by decide⟩

theorem takeWhile_append_all {α : Type} (p : α → Bool) :
    ∀ (l1 l2 : List α), (∀ a ∈ l1, p a = true) →
      (l1 ++ l2).takeWhile p = l1 ++ l2.takeWhile p := by
  intro l1
  induction l1 with
  | nil =>
    intro l2 _
    rfl
  | cons a l ih =>
    intro l2 h
    have ha : p a = true := h a (by simp)
    simp only [List.cons_append, List.takeWhile_cons, ha, if_true]
    rw [ih l2 (fun x hx => h x (by simp [hx]))]

theorem dropWhile_append_all {α : Type} (p : α → Bool) :
    ∀ (l1 l2 : List α), (∀ a ∈ l1, p a = true) →
      (l1 ++ l2).dropWhile p = l2.dropWhile p := by
  intro l1
  induction l1 with
  | nil =>
    intro l2 _
    rfl
  | cons a l ih =>
    intro l2 h
    have ha : p a = true := h a (by simp)
    simp only [List.cons_append, List.dropWhile_cons, ha, if_true]
    exact ih l2 (fun x hx => h x (by simp [hx]))

theorem stripQuery_append (p q : String) (hp : ∀ c ∈ p.data, c ≠ '?') :
    stripQuery (p ++ "?" ++ q) = p := by
  have hdata : (p ++ "?" ++ q).data = p.data ++ ('?' :: q.data) := by
    have h1 : (p ++ "?" ++ q).data = (p.data ++ ['?']) ++ q.data := rfl
    rw [h1, List.append_assoc]
    rfl
  rw [stripQuery, hdata,
      takeWhile_append_all _ p.data ('?' :: q.data)
        (fun c hc => by simpa using hp c hc)]
  have hstop : List.takeWhile (fun c => decide (c ≠ '?')) ('?' :: q.data) = [] := by
    simp [List.takeWhile_cons]
  rw [hstop, List.append_nil]

theorem mem_addLinks (hs : List String) :
    ∀ (acc : List String) (y : String),
      y ∈ addLinks acc hs ↔
        y ∈ acc ∨ ∃ h ∈ hs,
          (pyTruthy h && pyStartsWith "/title/" h) = true ∧ y = canonHref h := by
  induction hs with
  | nil =>
    intro acc y
    simp [addLinks]
  | cons h rest ih =>
    intro acc y
    have step : addLinks acc (h :: rest)
        = addLinks
            (if pyTruthy h && pyStartsWith "/title/" h then insertSet acc (canonHref h)
             else acc) rest := rfl
    rw [step]
    by_cases hc : (pyTruthy h && pyStartsWith "/title/" h) = true
    · rw [if_pos hc, ih, mem_insertSet]
      constructor
      · rintro ((hy | rfl) | ⟨a, ha, hva, rfl⟩)
        · exact Or.inl hy
        · exact Or.inr ⟨h, by simp, hc, rfl⟩
        · exact Or.inr ⟨a, by simp [ha], hva, rfl⟩
      · rintro (hy | ⟨a, ha, hva, rfl⟩)
        · exact Or.inl (Or.inl hy)
        · rcases List.mem_cons.mp ha with rfl | ha'
          · exact Or.inl (Or.inr rfl)
          · exact Or.inr ⟨a, ha', hva, rfl⟩
    · rw [if_neg hc, ih]
      constructor
      · rintro (hy | ⟨a, ha, hva, rfl⟩)
        · exact Or.inl hy
        · exact Or.inr ⟨a, by simp [ha], hva, rfl⟩
      · rintro (hy | ⟨a, ha, hva, rfl⟩)
        · exact Or.inl hy
        · rcases List.mem_cons.mp ha with rfl | ha'
          · exact absurd hva hc
          · exact Or.inr ⟨a, ha', hva, rfl⟩

theorem mem_goLinks (d : Doc) :
    ∀ (sels acc : List String) (y : String),
      y ∈ goLinks d sels acc →
        y ∈ acc ∨ ∃ sel ∈ sels, ∃ h ∈ d.select sel,
          (pyTruthy h && pyStartsWith "/title/" h) = true ∧ y = canonHref h := by
  intro sels
  induction sels with
  | nil =>
    intro acc y hy
    exact Or.inl hy
  | cons sel rest ih =>
    intro acc y hy
    by_cases hf : d.select sel = []
    · simp only [goLinks, hf, if_pos rfl] at hy
      rcases ih acc y hy with h | ⟨s, hs, a, ha, hva, rfl⟩
      · exact Or.inl h
      · exact Or.inr ⟨s, by simp [hs], a, ha, hva, rfl⟩
    · simp only [goLinks, if_neg hf] at hy
      by_cases hz : addLinks acc (d.select sel) = []
      · rw [if_pos hz] at hy
        rcases ih _ y hy with h | ⟨s, hs, a, ha, hva, rfl⟩
        · rcases (mem_addLinks _ _ _).mp h with h' | ⟨a, ha, hva, rfl⟩
          · exact Or.inl h'
          · exact Or.inr ⟨sel, by simp, a, ha, hva, rfl⟩
        · exact Or.inr ⟨s, by simp [hs], a, ha, hva, rfl⟩
      · rw [if_neg hz] at hy
        rcases (mem_addLinks _ _ _).mp hy with h' | ⟨a, ha, hva, rfl⟩
        · exact Or.inl h'
        · exact Or.inr ⟨sel, by simp, a, ha, hva, rfl⟩

/-- Claim C8: every link in the result of `extract_movie_links` is the
canonicalization of some anchor `href` matched by one of the selector
strategies — the query string is stripped and the path resolved against
`https://www.imdb.com` — and two anchors differing only in their query
parameters canonicalize to the same identifier. -/
theorem claim_C8 :
    (∀ (d : Doc) (y : String), y ∈ extract_movie_links d →
        ∃ sel ∈ linkSelectors, ∃ h ∈ d.select sel,
          pyStartsWith "/title/" h = true
            ∧ y = "https://www.imdb.com" ++ stripQuery h)
    ∧ (∀ h1 h2 : String, stripQuery h1 = stripQuery h2 → canonHref h1 = canonHref h2)
    ∧ (∀ p q1 q2 : String, (∀ c ∈ p.data, c ≠ '?') →
        canonHref (p ++ "?" ++ q1) = canonHref (p ++ "?" ++ q2)) := by
  refine ⟨?_, ?_, ?_⟩
  · intro d y hy
    rcases mem_goLinks d linkSelectors [] y hy with h | ⟨sel, hsel, a, ha, hva, rfl⟩
    · cases h
    · refine ⟨sel, hsel, a, ha, ?_, rfl⟩
      have := hva
      simp only [Bool.and_eq_true] at this
      exact this.2
  · intro h1 h2 h
    rw [canonHref, canonHref, h]
  · intro p q1 q2 hp
    rw [canonHref, canonHref, stripQuery_append p q1 hp, stripQuery_append p q2 hp]

/-- Witness for claim C8: the one link extracted from `cdocC2w` is the
canonicalized form of a matched anchor, and two hrefs differing only in
query parameters give one identifier. -/
theorem claim_C8_witness :
    (∃ sel ∈ linkSelectors, ∃ h ∈ cdocC2w.select sel,
        pyStartsWith "/title/" h = true
          ∧ "https://www.imdb.com/title/tt0000007"
              = "https://www.imdb.com" ++ stripQuery h)
    ∧ canonHref "/title/tt0000007?x=1" = canonHref "/title/tt0000007?y=2" :=
  ⟨claim_C8.1 cdocC2w "https://www.imdb.com/title/tt0000007" (by decide),
   claim_C8.2.2 "/title/tt0000007" "x=1" "y=2" (by decide)⟩

theorem goRating_firstFound (d : Doc) :
    ∀ (sels : List String) (t v : String),
      firstSome (sels.map d.selectOne) = some t →
      ratingSearch (pyStrip t) = some v →
      goRating d sels = v := by
  intro sels
  induction sels with
  | nil =>
    intro t v h _
    cases h
  | cons sel rest ih =>
    intro t v hf hr
    cases h : d.selectOne sel with
    | some u =>
      rw [List.map_cons, h] at hf
      have hu : u = t := by simpa [firstSome] using hf
      subst hu
      simp [goRating, h, hr]
    | none =>
      rw [List.map_cons, h] at hf
      simp only [firstSome] at hf
      simp [goRating, h, ih t v hf hr]

theorem ratingSearchL_decomp (pre d1 d2 post : List Char)
    (hpre : ∀ c ∈ pre, c.isDigit = false)
    (hd1 : d1 ≠ []) (hd1d : ∀ c ∈ d1, c.isDigit = true)
    (hd2 : ∀ c ∈ d2, c.isDigit = true)
    (hpost : ∀ c, post.head? = some c → c.isDigit = false) :
    ratingSearchL (pre ++ (d1 ++ '.' :: d2) ++ post) = some (d1 ++ '.' :: d2) := by
  obtain ⟨c, d1', rfl⟩ := List.exists_cons_of_ne_nil hd1
  have hc : c.isDigit = true := hd1d c (by simp)
  have hd1d' : ∀ x ∈ d1', x.isDigit = true := fun x hx => hd1d x (by simp [hx])
  have hpostTake : post.takeWhile Char.isDigit = [] := by
    cases post with
    | nil => rfl
    | cons a post' =>
      have ha := hpost a rfl
      simp [List.takeWhile_cons, ha]
  have hshape : pre ++ ((c :: d1') ++ '.' :: d2) ++ post
      = pre ++ (c :: (d1' ++ '.' :: d2 ++ post)) := by
    simp [List.append_assoc]
  have hdrop : (pre ++ ((c :: d1') ++ '.' :: d2) ++ post).dropWhile
      (fun x => !x.isDigit) = c :: (d1' ++ '.' :: d2 ++ post) := by
    rw [hshape,
        dropWhile_append_all _ pre _ (fun x hx => by simp [hpre x hx])]
    simp [List.dropWhile_cons, hc]
  have htake : (c :: (d1' ++ '.' :: d2 ++ post)).takeWhile Char.isDigit
      = c :: d1' := by
    have hsplit : c :: (d1' ++ '.' :: d2 ++ post)
        = (c :: d1') ++ ('.' :: (d2 ++ post)) := by simp
    rw [hsplit, takeWhile_append_all _ (c :: d1') _ hd1d]
    simp [List.takeWhile_cons]
  have hdrop2 : (c :: (d1' ++ '.' :: d2 ++ post)).dropWhile Char.isDigit
      = '.' :: (d2 ++ post) := by
    have hsplit : c :: (d1' ++ '.' :: d2 ++ post)
        = (c :: d1') ++ ('.' :: (d2 ++ post)) := by simp
    rw [hsplit, dropWhile_append_all _ (c :: d1') _ hd1d]
    simp [List.dropWhile_cons]
  have hcore : ratingCore (c :: (d1' ++ '.' :: d2 ++ post))
      = (c :: d1') ++ '.' :: d2 := by
    simp only [ratingCore, htake, hdrop2]
    rw [if_pos trivial, takeWhile_append_all _ d2 post hd2, hpostTake,
        List.append_nil]
  rw [ratingSearchL, hdrop]
  show some (ratingCore (c :: (d1' ++ '.' :: d2 ++ post)))
      = some ((c :: d1') ++ '.' :: d2)
  rw [hcore]

/-- Claim C9: for every document whose located rating text embeds the
numeric value in surrounding text (no digit before it, no digit right
after it), `extract_rating` returns exactly the first decimal run — for
`"7.4 / 10"` the value `7.4`, not the surrounding string and not the later
`10`. -/
theorem claim_C9 (d : Doc) (t : String) (pre d1 d2 post : List Char)
    (hft : firstRatingText d = some t)
    (hdec : (pyStrip t).data = pre ++ (d1 ++ '.' :: d2) ++ post)
    (hpre : ∀ c ∈ pre, c.isDigit = false)
    (hd1 : d1 ≠ []) (hd1d : ∀ c ∈ d1, c.isDigit = true)
    (hd2 : ∀ c ∈ d2, c.isDigit = true)
    (hpost : ∀ c, post.head? = some c → c.isDigit = false) :
    extract_rating d = ⟨d1 ++ '.' :: d2⟩ := by
  have hsearch : ratingSearch (pyStrip t) = some ⟨d1 ++ '.' :: d2⟩ := by
    rw [ratingSearch, hdec,
        ratingSearchL_decomp pre d1 d2 post hpre hd1 hd1d hd2 hpost]
    rfl
  rw [extract_rating]
  rw [firstRatingText] at hft
  exact goRating_firstFound d ratingSelectors t _ hft hsearch

/-- Witness for claim C9: the spec's concrete scenario — the first rating
strategy finds nothing on `cdocC9` and the second finds `"7.4 / 10"` — via
the theorem itself. -/
theorem claim_C9_witness : extract_rating cdocC9 = "7.4" := by
  have h := claim_C9 cdocC9 "7.4 / 10" [] ['7'] ['4'] [' ', '/', ' ', '1', '0']
    (by decide) (by decide) (by decide) (by decide) (by decide) (by decide)
    (by
      intro c hc
      have hc' : ' ' = c := Option.some.inj hc
      subst hc'
      rfl)
  exact h.trans (by decide)

end Scraper

namespace ReviewScraper

open Scraper (pyStrip)

/-- Claim C10: `extract_reviews` returns at most 25 review records — the
parses of the first 25 review articles in document order — and the
reported total review count (a natural number, hence non-negative) is 0
when the total-reviews element is absent or its text holds no digit. -/
theorem claim_C10 (d : ReviewDoc) (mt mu : String) :
    (extract_reviews d mt mu).1.length ≤ 25
    ∧ (extract_reviews d mt mu).1
        = (d.articles.take 25).filterMap (parseReview mt mu)
    ∧ (d.totalText = none → (extract_reviews d mt mu).2 = 0)
    ∧ (∀ t, d.totalText = some t →
        (∀ c ∈ (pyStrip t).data, c.isDigit = false) →
        (extract_reviews d mt mu).2 = 0) := by
  have htotal : (extract_reviews d mt mu).2 = extract_total_reviews d := by
    cases h : d.articles <;> simp [extract_reviews, h]
  refine ⟨?_, ?_, ?_, ?_⟩
  · cases h : d.articles with
    | nil => simp [extract_reviews, h]
    | cons a rest =>
      have h1 : (extract_reviews d mt mu).1
          = (d.articles.take 25).filterMap (parseReview mt mu) := by
        simp [extract_reviews, h]
      rw [h1]
      refine le_trans (List.length_filterMap_le _ _) ?_
      rw [List.length_take]
      exact Nat.min_le_left 25 _
  · cases h : d.articles with
    | nil => simp [extract_reviews, h]
    | cons a rest => simp [extract_reviews, h]
  · intro h
    rw [htotal]
    simp [extract_total_reviews, h]
  · intro t ht hnd
    rw [htotal]
    have hfil : (pyStrip t).data.filter Char.isDigit = [] := by
      rw [List.filter_eq_nil_iff]
      intro c hc
      simp [hnd c hc]
    simp [extract_total_reviews, ht, hfil]

/-- Witness for claim C10: a review page with 30 articles and a digitless
total-reviews element yields at most 25 records and total 0, via the
theorem itself. -/
theorem claim_C10_witness :
    (extract_reviews cReviewDoc "M" "u").1.length ≤ 25
    ∧ (extract_reviews cReviewDoc "M" "u").2 = 0 :=
  ⟨(claim_C10 cReviewDoc "M" "u").1,
   (claim_C10 cReviewDoc "M" "u").2.2.2 "no reviews yet" rfl (by decide)⟩

end ReviewScraper
